import Mathlib

/-!
Verification development for the instrumented key-value cache layer of the
repository (files 0x02-redis_basic/exercise.py and 0x02-redis_basic/web.py),
shallowly embedded in Lean 4.

The Redis backend is external to the repository; it is modelled from the
backend contract stated in the specification (get / set / setex / incr /
rpush / lrange / exists, with set-style writes overwriting unconditionally,
incr creating the key at 0 when absent, and expired entries logically
absent).  Values stored in the backend are byte strings; we model byte
strings as Lean String values (all payloads in play are ASCII text).

Python builtin behaviour that the code relies on is modelled explicitly:
str() on naturals and integers is the decimal rendering (pyNatStr, pyIntStr),
int() on byte strings is decimal parsing with an optional leading minus sign
(pyStrToInt?), str() on an argument tuple is the parenthesised, comma
separated rendering of the repr of each element (pyStrTuple), and str() on a
bytes object is its bytes-literal repr (pyBytesRepr, modelled for payloads
made of printable ASCII without quotes or backslashes, which covers every
payload the code logs).
-/

/-- The decimal digit character for a digit below 10 (models the digit
characters produced by str() on integers). -/
def digChar (d : Nat) : Char :=
  if d = 0 then '0' else if d = 1 then '1' else if d = 2 then '2' else if d = 3 then '3'
  else if d = 4 then '4' else if d = 5 then '5' else if d = 6 then '6' else if d = 7 then '7'
  else if d = 8 then '8' else '9'

/-- The digit value of a decimal digit character, none on any other
character (models the per-character acceptance of int()). -/
def charDig (c : Char) : Option Nat :=
  if c = '0' then some 0 else if c = '1' then some 1 else if c = '2' then some 2
  else if c = '3' then some 3 else if c = '4' then some 4 else if c = '5' then some 5
  else if c = '6' then some 6 else if c = '7' then some 7 else if c = '8' then some 8
  else if c = '9' then some 9 else none

/-- Structural worker for the decimal digit list: the fuel strictly bounds
the number, so the recursion is structural and kernel-reducible. -/
def decDigitsCore : Nat → Nat → List Char
  | 0, _ => []
  | fuel + 1, n =>
      if n < 10 then [digChar n] else digChar (n % 10) :: decDigitsCore fuel (n / 10)

/-- Little-endian decimal digit characters of a natural number. -/
def decDigitsLE (n : Nat) : List Char :=
  decDigitsCore (n + 1) n

lemma decDigitsCore_fuel (n : Nat) : ∀ fuel1 fuel2 : Nat, n < fuel1 → n < fuel2 →
    decDigitsCore fuel1 n = decDigitsCore fuel2 n := by
  induction n using Nat.strong_induction_on with
  | _ n ih =>
    intro fuel1 fuel2 h1 h2
    cases fuel1 with
    | zero => omega
    | succ f1 =>
      cases fuel2 with
      | zero => omega
      | succ f2 =>
        rw [decDigitsCore, decDigitsCore]
        by_cases h : n < 10
        · simp [h]
        · simp [h]
          exact ih (n / 10) (Nat.div_lt_self (by omega) (by omega)) f1 f2 (by omega) (by omega)

/-- The recursion equation of the decimal digit list. -/
lemma decDigitsLE_unfold (n : Nat) : decDigitsLE n =
    if n < 10 then [digChar n] else digChar (n % 10) :: decDigitsLE (n / 10) := by
  rw [decDigitsLE, decDigitsCore]
  by_cases h : n < 10
  · simp [h]
  · simp [h]
    rw [decDigitsLE]
    exact decDigitsCore_fuel (n / 10) n (n / 10 + 1) (by omega) (by omega)

/-- Model of Python str() on a natural number: its decimal rendering. -/
def pyNatStr (n : Nat) : String :=
  String.mk (decDigitsLE n).reverse

/-- Model of Python str() on an integer: decimal rendering with a leading
minus sign on negatives. -/
def pyIntStr (n : Int) : String :=
  if n < 0 then String.mk ('-' :: (decDigitsLE n.natAbs).reverse)
  else pyNatStr n.natAbs

/-- One step of decimal parsing: extend the accumulated value with one
character, failing on a non-digit. -/
def parseStep (acc : Option Nat) (c : Char) : Option Nat :=
  match acc, charDig c with
  | some a, some d => some (a * 10 + d)
  | _, _ => none

/-- Model of Python int() restricted to unsigned decimal strings: every
character must be a digit and the string must be nonempty. -/
def pyCharsToNat? (l : List Char) : Option Nat :=
  if l.isEmpty then none else List.foldl parseStep (some 0) l

/-- Model of Python int() on a byte string: optional leading minus sign,
then a nonempty run of decimal digits.  (Python also accepts surrounding
whitespace, a plus sign and underscores; no payload in this development
uses those forms.) -/
def pyStrToInt? (s : String) : Option Int :=
  match s.data with
  | [] => none
  | c :: rest =>
      if c = '-' then (pyCharsToNat? rest).map (fun m => -(m : Int))
      else (pyCharsToNat? s.data).map (fun m => (m : Int))

lemma charDig_digChar (d : Nat) (h : d < 10) : charDig (digChar d) = some d := by
  interval_cases d <;> rfl

lemma decDigitsLE_ne_nil (n : Nat) : decDigitsLE n ≠ [] := by
  rw [decDigitsLE_unfold]
  split <;> simp

lemma decDigitsLE_digits (n : Nat) : ∀ c ∈ decDigitsLE n, ∃ d, d < 10 ∧ c = digChar d := by
  induction n using Nat.strong_induction_on with
  | _ n ih =>
    rw [decDigitsLE_unfold]
    split
    · intro c hc
      simp at hc
      exact ⟨n, by omega, hc⟩
    · intro c hc
      simp at hc
      rcases hc with hc | hc
      · exact ⟨n % 10, by omega, hc⟩
      · exact ih (n / 10) (Nat.div_lt_self (by omega) (by omega)) c hc

lemma foldl_parseStep_decDigitsLE (n : Nat) :
    ∀ a : Nat, List.foldl parseStep (some a) (decDigitsLE n).reverse =
      some (a * 10 ^ (decDigitsLE n).length + n) := by
  induction n using Nat.strong_induction_on with
  | _ n ih =>
    intro a
    rw [decDigitsLE_unfold]
    split
    · simp [parseStep, charDig_digChar n (by omega)]
    · rename_i h
      simp only [List.reverse_cons, List.foldl_append, List.length_cons]
      rw [ih (n / 10) (Nat.div_lt_self (by omega) (by omega)) a]
      simp [parseStep, charDig_digChar (n % 10) (by omega)]
      ring_nf
      omega

/-- Decimal round trip at the natural-number level: parsing the decimal
rendering of a natural number recovers the number. -/
lemma pyCharsToNat?_pyNatStr (n : Nat) : pyCharsToNat? (pyNatStr n).data = some n := by
  have hne : ((decDigitsLE n).reverse).isEmpty = false := by
    simp [decDigitsLE_ne_nil n]
  have hdata : (pyNatStr n).data = (decDigitsLE n).reverse := rfl
  rw [pyCharsToNat?, hdata, hne]
  simp only [Bool.false_eq_true, if_false]
  rw [foldl_parseStep_decDigitsLE n 0]
  simp

lemma digChar_ne_minus (m : Int) (c : Char) (h : c ∈ decDigitsLE (Int.natAbs m)) : c ≠ '-' := by
  rcases decDigitsLE_digits _ c h with ⟨d, hd, rfl⟩
  interval_cases d <;> decide

/-- Decimal round trip at the integer level: parsing the decimal rendering
of an integer (with its sign) recovers the integer. -/
lemma pyStrToInt?_pyIntStr (n : Int) : pyStrToInt? (pyIntStr n) = some n := by
  by_cases hn : n < 0
  · rw [pyIntStr, if_pos hn]
    have hrec : pyCharsToNat? (decDigitsLE n.natAbs).reverse = some n.natAbs := by
      have := pyCharsToNat?_pyNatStr n.natAbs
      simpa [pyNatStr] using this
    rw [pyStrToInt?]
    simp [hrec]
    rw [abs_of_neg hn]
    ring
  · rw [pyIntStr, if_neg hn]
    have h0 := pyCharsToNat?_pyNatStr n.natAbs
    have hdata : (pyNatStr n.natAbs).data = (decDigitsLE n.natAbs).reverse := rfl
    rw [hdata] at h0
    rw [pyStrToInt?, hdata]
    rcases hd : (decDigitsLE n.natAbs).reverse with _ | ⟨c, rest⟩
    · exact absurd hd (by simp [decDigitsLE_ne_nil])
    · have hc : c ≠ '-' := by
        apply digChar_ne_minus n c
        have hmem : c ∈ (decDigitsLE n.natAbs).reverse := by
          rw [hd]
          simp
        simpa using hmem
      rw [hd] at h0
      simp [hc, h0]
      omega

/-- A Python scalar value of the kinds handled by the typed retrievals of
Cache (text, bytes, integer).  The source signature of Cache.store also
admits float; no typed retrieval for floats exists in the source and
floating-point payloads are outside this embedding. -/
inductive PyVal where
  | vstr (s : String)
  | vbytes (b : String)
  | vint (n : Int)
deriving DecidableEq

/-- The byte string the redis client sends for a Python value: text and
bytes pass through, integers are rendered in decimal. -/
def encodeToRedis : PyVal → String
  | .vstr s => s
  | .vbytes b => b
  | .vint n => pyIntStr n

/-- Model of Python repr on the scalar values in play: strings are quoted,
bytes get a bytes literal, integers render in decimal.  Quoting is modelled
for payloads free of quote characters, backslashes and non-printables,
which covers every payload the code logs. -/
def pyRepr : PyVal → String
  | .vstr s => "\x27" ++ s ++ "\x27"
  | .vbytes b => "b\x27" ++ b ++ "\x27"
  | .vint n => pyIntStr n

/-- Model of Python str() on the tuple of positional arguments: empty tuple,
one-element tuple with trailing comma, or comma separated reprs. -/
def pyStrTuple : List PyVal → String
  | [] => "()"
  | [a] => "(" ++ pyRepr a ++ ",)"
  | l => "(" ++ String.intercalate ", " (l.map pyRepr) ++ ")"

/-- Model of Python str() (= repr) on a bytes object: the bytes literal
form, modelled for printable ASCII payloads without quotes or backslashes. -/
def pyBytesRepr (b : String) : String :=
  "b\x27" ++ b ++ "\x27"

/-- Lookup in an association list keyed by strings (first match wins). -/
def alookup {α : Type} : List (String × α) → String → Option α
  | [], _ => none
  | (k, v) :: rest, key => if k = key then some v else alookup rest key

/-- Overwriting write to an association list: the new binding shadows any
earlier one. -/
def aset {α : Type} (l : List (String × α)) (k : String) (v : α) : List (String × α) :=
  (k, v) :: l

lemma alookup_aset_self {α : Type} (l : List (String × α)) (k : String) (v : α) :
    alookup (aset l k v) k = some v := by
  simp [alookup, aset]

lemma alookup_aset_other {α : Type} (l : List (String × α)) (k k2 : String) (v : α)
    (h : k ≠ k2) : alookup (aset l k v) k2 = alookup l k2 := by
  simp [alookup, aset, h]

/-- The portion of the backend store the exercise module touches: plain
string keys (written by set / incr) and list keys (written by rpush).
Modelled from the backend contract in the specification. -/
structure ExRedis where
  kv : List (String × String)
  lists : List (String × List String)
deriving DecidableEq

/-- Backend get: the raw byte string stored under a key, absent as none. -/
def exGet (r : ExRedis) (k : String) : Option String :=
  alookup r.kv k

/-- Backend set: unconditional overwrite. -/
def exSet (r : ExRedis) (k : String) (v : String) : ExRedis :=
  { r with kv := aset r.kv k v }

/-- Backend incr: create the key at 0 when absent, then add one, storing
the new value in decimal.  (The real backend errors on a non-integer
payload; no reachable state stores a non-integer under a counter key, and
the model totalises that case with default 0.) -/
def exIncr (r : ExRedis) (k : String) : ExRedis :=
  match exGet r k with
  | none => exSet r k (pyIntStr 1)
  | some v => exSet r k (pyIntStr (((pyStrToInt? v).getD 0) + 1))

/-- Backend lrange over the whole list (the source only ever reads ranges
of the form 0 .. -1, meaning the entire list). -/
def exLrangeAll (r : ExRedis) (k : String) : List String :=
  (alookup r.lists k).getD []

/-- Backend rpush: append one element at the tail of the list under a key,
creating the list when absent. -/
def exRpush (r : ExRedis) (k : String) (v : String) : ExRedis :=
  { r with lists := aset r.lists k (exLrangeAll r k ++ [v]) }

/-- Backend exists check on a plain key. -/
def exExists (r : ExRedis) (k : String) : Bool :=
  (alookup r.kv k).isSome

/-- State carried by a Cache instance: the backend connection plus the
process-local source of fresh identifiers modelling uuid4. -/
structure ExSt where
  redis : ExRedis
  nextId : Nat
deriving DecidableEq

/-- Keyword arguments of a Python call. -/
abbrev Kwargs := List (String × PyVal)

/-- Calling convention of an instrumented Cache method under explicit state
passing: state, positional arguments and keyword arguments in, result and
state out. -/
abbrev Method := ExSt → List PyVal → Kwargs → PyVal × ExSt

/-- Embedding of the count_calls decorator: before delegating, atomically
increment the counter stored under the qualified name of the method.  The
qualified name is passed explicitly (runtime reflection is unavailable in
the embedding); the isinstance check on the redis attribute always succeeds
for a genuine Cache instance and is modelled as passing. -/
def count_calls (qualname : String) (method : Method) : Method :=
  fun st args kwargs =>
    method { st with redis := exIncr st.redis qualname } args kwargs

/-- Embedding of the call_history decorator: append str() of the positional
argument tuple to the inputs list, delegate, append the encoded output to
the outputs list, return the output.  Keyword arguments are passed through
to the method but never recorded. -/
def call_history (qualname : String) (method : Method) : Method :=
  fun st args kwargs =>
    let in_key := qualname ++ ":inputs"
    let out_key := qualname ++ ":outputs"
    let st1 : ExSt := { st with redis := exRpush st.redis in_key (pyStrTuple args) }
    let p := method st1 args kwargs
    (p.1, { p.2 with redis := exRpush p.2.redis out_key (encodeToRedis p.1) })

/-- The qualified name of Cache.store. -/
def storeQualname : String := "Cache.store"

/-- Body of Cache.store: generate a fresh key, write the encoded value
under it, return the key.  uuid4 is modelled by the process-local fresh
counter rendered into a key disjoint from every method qualified name. -/
def store_body : Method :=
  fun st args _kwargs =>
    match args with
    | [v] =>
        let data_key := "uuid-" ++ pyNatStr st.nextId
        (PyVal.vstr data_key,
          { redis := exSet st.redis data_key (encodeToRedis v), nextId := st.nextId + 1 })
    | _ => (PyVal.vstr "", st)

/-- The decorated Cache.store exactly as stacked in the source:
call_history outermost, count_calls innermost. -/
def store : Method := call_history storeQualname (count_calls storeQualname store_body)

/-- Calling cache.store(v): one positional argument, no keyword arguments;
the returned value is the generated key (always a str). -/
def callStore (st : ExSt) (v : PyVal) : String × ExSt :=
  match store st [v] [] with
  | (PyVal.vstr k, st2) => (k, st2)
  | (_, st2) => ("", st2)

/-- Outcome of Cache.get and the typed getters.  pynone models the Python
None value returned when the key is absent and no conversion function is
given; err models an exception escaping the conversion function (None has
no decode attribute, int() rejects None and non-numeric payloads). -/
inductive GetRes where
  | pynone
  | raw (b : String)
  | text (s : String)
  | num (n : Int)
  | err
deriving DecidableEq

/-- Embedding of Cache.get: read the raw payload, then return fn(data) when
a conversion function is supplied (even when the payload is absent) and the
raw payload or None otherwise. -/
def cache_get (st : ExSt) (key : String) (fn : Option (Option String → GetRes)) : GetRes :=
  let data := exGet st.redis key
  match fn with
  | some f => f data
  | none =>
      match data with
      | some b => GetRes.raw b
      | none => GetRes.pynone

/-- The fixed conversion of get_str: UTF-8 decode of the raw bytes (the
identity on our ASCII payload model); on an absent key the lambda receives
None and raises. -/
def strDecoder : Option String → GetRes
  | some b => GetRes.text b
  | none => GetRes.err

/-- Embedding of Cache.get_str. -/
def get_str (st : ExSt) (key : String) : GetRes :=
  cache_get st key (some strDecoder)

/-- The fixed conversion of get_int: int() on the raw bytes; on an absent
key or a non-numeric payload it raises. -/
def intDecoder : Option String → GetRes
  | some b =>
      match pyStrToInt? b with
      | some n => GetRes.num n
      | none => GetRes.err
  | none => GetRes.err

/-- Embedding of Cache.get_int. -/
def get_int (st : ExSt) (key : String) : GetRes :=
  cache_get st key (some intDecoder)

/-- The redis attribute found on the object bound to a method handle:
either a genuine backend connection or anything that fails the isinstance
check (including a missing attribute). -/
inductive BoundStore where
  | invalid
  | valid (r : ExRedis)

/-- A method handle as replay receives it: the None literal, a function
with no bound object, or a bound method carrying its qualified name and
whatever its object exposes as the redis attribute. -/
inductive Handle where
  | null
  | unbound (qualname : String)
  | bound (qualname : String) (s : BoundStore)

/-- The call counter replay reports: 0 when the counter key is absent,
otherwise int() of the stored payload.  (int() raises on a non-numeric
payload; no reachable state stores one under a counter key, and the model
totalises that case with default 0.) -/
def counterOf (r : ExRedis) (qualname : String) : Int :=
  if exExists r qualname then ((exGet r qualname).bind pyStrToInt?).getD 0 else 0

/-- One history line of replay: the inputs entry is UTF-8 decoded before
formatting, the outputs entry is formatted as the raw bytes object, hence
its bytes-literal rendering. -/
def historyLine (qualname input output : String) : String :=
  qualname ++ "(*" ++ input ++ ") -> " ++ pyBytesRepr output

/-- The per-call lines replay prints: the aligned pairs of the inputs and
outputs lists, in list order. -/
def historyLines (qualname : String) (r : ExRedis) : List String :=
  List.zipWith (historyLine qualname)
    (exLrangeAll r (qualname ++ ":inputs"))
    (exLrangeAll r (qualname ++ ":outputs"))

/-- The header line replay prints before the per-call lines. -/
def headerLine (qualname : String) (r : ExRedis) : String :=
  qualname ++ " was called " ++ pyIntStr (counterOf r qualname) ++ " times:"

/-- Embedding of replay, returning the list of printed lines: nothing on a
null, unbound or invalid-store handle, otherwise the header followed by one
line per aligned input/output pair. -/
def replay : Handle → List String
  | .null => []
  | .unbound _ => []
  | .bound _ BoundStore.invalid => []
  | .bound qualname (BoundStore.valid r) => headerLine qualname r :: historyLines qualname r

/-- The state the Cache constructor establishes: flushdb clears the entire
backend namespace, and the fresh-key source starts at zero. -/
def cacheInit : ExSt := { redis := { kv := [], lists := [] }, nextId := 0 }

/-- Iterating cache.store over a list of values, collecting the returned
keys in call order. -/
def runStores : ExSt → List PyVal → List String × ExSt
  | st, [] => ([], st)
  | st, v :: vs =>
      let p := callStore st v
      let q := runStores p.2 vs
      (p.1 :: q.1, q.2)

/-- The inputs log of an instrumented operation. -/
def inputsLog (r : ExRedis) (qualname : String) : List String :=
  exLrangeAll r (qualname ++ ":inputs")

/-- The outputs log of an instrumented operation. -/
def outputsLog (r : ExRedis) (qualname : String) : List String :=
  exLrangeAll r (qualname ++ ":outputs")

lemma counterOf_exIncr (r : ExRedis) (k : String) :
    counterOf (exIncr r k) k = counterOf r k + 1 := by
  rcases hg : exGet r k with _ | v
  · rw [exIncr, hg]
    rw [counterOf, counterOf]
    have h1 : exExists (exSet r k (pyIntStr 1)) k = true := by
      simp [exExists, exSet, alookup_aset_self]
    have h2 : exExists r k = false := by
      simp [exExists]
      simp [exGet] at hg
      simp [hg]
    rw [h1, h2]
    simp [exGet, exSet, alookup_aset_self, pyStrToInt?_pyIntStr]
  · rw [exIncr, hg]
    rw [counterOf, counterOf]
    have h1 : exExists (exSet r k (pyIntStr (((pyStrToInt? v).getD 0) + 1))) k = true := by
      simp [exExists, exSet, alookup_aset_self]
    have h2 : exExists r k = true := by
      simp [exExists]
      simp [exGet] at hg
      simp [hg]
    rw [h1, h2]
    simp only [exGet] at hg
    simp [exGet, exSet, alookup_aset_self, pyStrToInt?_pyIntStr, hg]

lemma counterOf_exSet_other (r : ExRedis) (k k2 : String) (v : String) (h : k2 ≠ k) :
    counterOf (exSet r k2 v) k = counterOf r k := by
  rw [counterOf, counterOf]
  have : alookup (exSet r k2 v).kv k = alookup r.kv k := by
    simp [exSet]
    exact alookup_aset_other r.kv k2 k v h
  simp [exExists, exGet, this]

lemma counterOf_exRpush (r : ExRedis) (k k2 : String) (v : String) :
    counterOf (exRpush r k2 v) k = counterOf r k := rfl

lemma lists_exIncr (r : ExRedis) (k : String) : (exIncr r k).lists = r.lists := by
  rw [exIncr]
  rcases exGet r k with _ | v <;> rfl

lemma exLrangeAll_exIncr (r : ExRedis) (k k2 : String) :
    exLrangeAll (exIncr r k2) k = exLrangeAll r k := by
  rw [exLrangeAll, exLrangeAll, lists_exIncr]

lemma exLrangeAll_exSet (r : ExRedis) (k k2 : String) (v : String) :
    exLrangeAll (exSet r k2 v) k = exLrangeAll r k := rfl

lemma exLrangeAll_exRpush_self (r : ExRedis) (k : String) (v : String) :
    exLrangeAll (exRpush r k v) k = exLrangeAll r k ++ [v] := by
  rw [exLrangeAll, exRpush]
  simp [alookup_aset_self]

lemma exLrangeAll_exRpush_other (r : ExRedis) (k k2 : String) (v : String) (h : k2 ≠ k) :
    exLrangeAll (exRpush r k2 v) k = exLrangeAll r k := by
  rw [exLrangeAll, exRpush]
  simp only
  rw [alookup_aset_other _ _ _ _ h]
  rfl

lemma kv_exRpush (r : ExRedis) (k : String) (v : String) : (exRpush r k v).kv = r.kv := rfl

/-- The fully unfolded effect of one call to the decorated store: the fresh
key is returned; the backend sees, in order, the inputs append, the counter
increment, the data write and the outputs append; the fresh-key source
advances. -/
lemma callStore_eq (st : ExSt) (v : PyVal) :
    callStore st v =
      ("uuid-" ++ pyNatStr st.nextId,
       { redis :=
           exRpush
             (exSet
               (exIncr (exRpush st.redis (storeQualname ++ ":inputs") (pyStrTuple [v]))
                 storeQualname)
               ("uuid-" ++ pyNatStr st.nextId) (encodeToRedis v))
             (storeQualname ++ ":outputs") ("uuid-" ++ pyNatStr st.nextId),
         nextId := st.nextId + 1 }) := rfl

lemma uuid_key_ne_storeQualname (n : Nat) : ("uuid-" ++ pyNatStr n) ≠ storeQualname := by
  intro h
  have hd := congrArg String.data h
  rw [String.data_append] at hd
  have h1 : ("uuid-" : String).data = ['u', 'u', 'i', 'd', '-'] := rfl
  have h2 : (storeQualname : String).data =
      ['C', 'a', 'c', 'h', 'e', '.', 's', 't', 'o', 'r', 'e'] := rfl
  rw [h1, h2] at hd
  simp at hd

lemma in_key_ne_out_key : (storeQualname ++ ":inputs") ≠ (storeQualname ++ ":outputs") := by
  decide

lemma callStore_counter (st : ExSt) (v : PyVal) :
    counterOf (callStore st v).2.redis storeQualname = counterOf st.redis storeQualname + 1 := by
  rw [callStore_eq]
  simp only
  rw [counterOf_exRpush, counterOf_exSet_other _ _ _ _ (uuid_key_ne_storeQualname st.nextId),
    counterOf_exIncr, counterOf_exRpush]

lemma callStore_inputs (st : ExSt) (v : PyVal) :
    inputsLog (callStore st v).2.redis storeQualname =
      inputsLog st.redis storeQualname ++ [pyStrTuple [v]] := by
  rw [callStore_eq]
  simp only [inputsLog]
  rw [exLrangeAll_exRpush_other _ _ _ _ (Ne.symm in_key_ne_out_key),
    exLrangeAll_exSet, exLrangeAll_exIncr, exLrangeAll_exRpush_self]

lemma callStore_outputs (st : ExSt) (v : PyVal) :
    outputsLog (callStore st v).2.redis storeQualname =
      outputsLog st.redis storeQualname ++ ["uuid-" ++ pyNatStr st.nextId] := by
  rw [callStore_eq]
  simp only [outputsLog]
  rw [exLrangeAll_exRpush_self, exLrangeAll_exSet, exLrangeAll_exIncr,
    exLrangeAll_exRpush_other _ _ _ _ in_key_ne_out_key]

lemma callStore_key (st : ExSt) (v : PyVal) :
    (callStore st v).1 = "uuid-" ++ pyNatStr st.nextId := by
  rw [callStore_eq]

lemma callStore_nextId (st : ExSt) (v : PyVal) :
    (callStore st v).2.nextId = st.nextId + 1 := by
  rw [callStore_eq]

lemma callStore_get (st : ExSt) (v : PyVal) :
    exGet (callStore st v).2.redis (callStore st v).1 = some (encodeToRedis v) := by
  rw [callStore_eq]
  simp only [exGet, exRpush, exSet]
  exact alookup_aset_self _ _ _

/-- Accumulated effect of a sequence of store calls, from any state: the
counter advances by the number of calls, the two logs gain one entry per
call in call order, and one key is returned per call. -/
lemma runStores_spec (vs : List PyVal) : ∀ st : ExSt,
    counterOf (runStores st vs).2.redis storeQualname =
        counterOf st.redis storeQualname + vs.length
    ∧ inputsLog (runStores st vs).2.redis storeQualname =
        inputsLog st.redis storeQualname ++ vs.map (fun v => pyStrTuple [v])
    ∧ outputsLog (runStores st vs).2.redis storeQualname =
        outputsLog st.redis storeQualname ++ (runStores st vs).1
    ∧ (runStores st vs).1.length = vs.length := by
  induction vs with
  | nil =>
    intro st
    simp [runStores]
  | cons v vs ih =>
    intro st
    rcases ih (callStore st v).2 with ⟨ih1, ih2, ih3, ih4⟩
    refine ⟨?_, ?_, ?_, ?_⟩
    · rw [runStores]
      simp only
      rw [ih1, callStore_counter]
      simp
      ring
    · rw [runStores]
      simp only
      rw [ih2, callStore_inputs]
      simp
    · rw [runStores]
      simp only
      rw [ih3, callStore_outputs, callStore_key]
      simp
    · rw [runStores]
      simp only
      rw [List.length_cons, ih4]
      rfl

/-- C1: storing a supported scalar value and retrieving it by the returned
key with the matching typed retrieval (get_str for text, get_int for
integers, the raw get for bytes) yields the value back, modulo the declared
type coercion. -/
theorem store_retrieve_roundtrip (st : ExSt) (v : PyVal) :
    (match v with
      | PyVal.vstr s => get_str (callStore st v).2 (callStore st v).1 = GetRes.text s
      | PyVal.vbytes b => cache_get (callStore st v).2 (callStore st v).1 none = GetRes.raw b
      | PyVal.vint n => get_int (callStore st v).2 (callStore st v).1 = GetRes.num n) := by
  have hg := callStore_get st v
  cases v with
  | vstr s => simp [get_str, cache_get, hg, strDecoder, encodeToRedis]
  | vbytes b => simp [cache_get, hg, encodeToRedis]
  | vint n => simp [get_int, cache_get, hg, intDecoder, encodeToRedis, pyStrToInt?_pyIntStr]

/-- C2: from the clean state the constructor establishes, the counter under
the qualified name of the count_calls wrapped store reads 0 before any
call, reads exactly N after N calls, and every single invocation increments
it by exactly one. -/
theorem count_calls_counter (vs : List PyVal) (st : ExSt) (v : PyVal) :
    counterOf cacheInit.redis storeQualname = 0
    ∧ counterOf (runStores cacheInit vs).2.redis storeQualname = vs.length
    ∧ counterOf (callStore st v).2.redis storeQualname
        = counterOf st.redis storeQualname + 1 := by
  refine ⟨rfl, ?_, callStore_counter st v⟩
  have h := (runStores_spec vs cacheInit).1
  rw [h]
  have h0 : counterOf cacheInit.redis storeQualname = 0 := rfl
  rw [h0]
  ring

/-- C3: after any sequence of completed calls to the call_history wrapped
store from the clean state, the input log and the output log each hold one
entry per completed call in call order, and replay on the store handle
prints, after its header, exactly one history line per completed call, in
call order. -/
theorem call_history_logs_and_replay (vs : List PyVal) :
    inputsLog (runStores cacheInit vs).2.redis storeQualname
        = vs.map (fun v => pyStrTuple [v])
    ∧ outputsLog (runStores cacheInit vs).2.redis storeQualname
        = (runStores cacheInit vs).1
    ∧ (inputsLog (runStores cacheInit vs).2.redis storeQualname).length = vs.length
    ∧ (outputsLog (runStores cacheInit vs).2.redis storeQualname).length = vs.length
    ∧ replay (Handle.bound storeQualname (BoundStore.valid (runStores cacheInit vs).2.redis))
        = headerLine storeQualname (runStores cacheInit vs).2.redis ::
            List.zipWith (historyLine storeQualname)
              (vs.map (fun v => pyStrTuple [v])) (runStores cacheInit vs).1
    ∧ (List.zipWith (historyLine storeQualname)
        (vs.map (fun v => pyStrTuple [v])) (runStores cacheInit vs).1).length = vs.length := by
  rcases runStores_spec vs cacheInit with ⟨_, h2, h3, h4⟩
  have hin : inputsLog (runStores cacheInit vs).2.redis storeQualname
      = vs.map (fun v => pyStrTuple [v]) := by
    rw [h2]
    rfl
  have hout : outputsLog (runStores cacheInit vs).2.redis storeQualname
      = (runStores cacheInit vs).1 := by
    rw [h3]
    rfl
  refine ⟨hin, hout, ?_, ?_, ?_, ?_⟩
  · rw [hin]
    simp
  · rw [hout, h4]
  · rw [replay]
    rw [historyLines]
    rw [show exLrangeAll (runStores cacheInit vs).2.redis (storeQualname ++ ":inputs")
        = inputsLog (runStores cacheInit vs).2.redis storeQualname from rfl]
    rw [show exLrangeAll (runStores cacheInit vs).2.redis (storeQualname ++ ":outputs")
        = outputsLog (runStores cacheInit vs).2.redis storeQualname from rfl]
    rw [hin, hout]
  · rw [List.length_zipWith, h4]
    simp

/-- The add operation of the replay scenario: two-argument integer addition
on an instrumented object, leaving the backend untouched. -/
def addOp : Method :=
  fun st args _kwargs =>
    match args with
    | [PyVal.vint a, PyVal.vint b] => (PyVal.vint (a + b), st)
    | _ => (PyVal.vint 0, st)

/-- add wrapped exactly as the scenario prescribes: call_history outermost,
count_calls innermost, under the qualified name add. -/
def wrappedAdd : Method := call_history "add" (count_calls "add" addOp)

/-- Backend state after add(1,2) then add(3,4) from a clean backend. -/
def addScenarioSt : ExSt :=
  (wrappedAdd (wrappedAdd cacheInit [PyVal.vint 1, PyVal.vint 2] []).2
    [PyVal.vint 3, PyVal.vint 4] []).2

/-- C8 counterexample: in the add scenario the history lines replay prints
are not the claimed add(*(1, 2)) -> 3 and add(*(3, 4)) -> 7: the first
printed line differs from the claimed one. -/
theorem replay_add_lines_counterexample :
    historyLines "add" addScenarioSt.redis ≠
        ["add(*(1, 2)) -> 3", "add(*(3, 4)) -> 7"]
    ∧ (historyLines "add" addScenarioSt.redis).head? ≠ some "add(*(1, 2)) -> 3" := by
  decide

/-- C8 amended: in the add scenario the counter reads 2 and replay prints,
after its header, one line per aligned input/output pair of the form
name(*input) -> output, where the input is the decoded argument tuple text
and the output is rendered as the raw bytes object it is, that is in its
bytes-literal form: add(*(1, 2)) -> b\x273\x27 then add(*(3, 4)) -> b\x277\x27. -/
theorem replay_add_scenario :
    counterOf addScenarioSt.redis "add" = 2
    ∧ replay (Handle.bound "add" (BoundStore.valid addScenarioSt.redis))
        = ["add was called 2 times:",
           historyLine "add" "(1, 2)" "3",
           historyLine "add" "(3, 4)" "7"]
    ∧ historyLine "add" "(1, 2)" "3" = "add(*(1, 2)) -> b\x273\x27"
    ∧ historyLine "add" "(3, 4)" "7" = "add(*(3, 4)) -> b\x277\x27" := by
  refine ⟨by decide, by decide, rfl, rfl⟩

/-- C9: replay on a null handle, an unbound handle, or a handle whose bound
object does not carry a genuine backend connection prints nothing and
raises no error: it is a silent no-op. -/
theorem replay_silent_noop (qualname : String) :
    replay Handle.null = []
    ∧ replay (Handle.unbound qualname) = []
    ∧ replay (Handle.bound qualname BoundStore.invalid) = [] := by
  exact ⟨rfl, rfl, rfl⟩

lemma in_key_ne_out_key_general (qualname : String) :
    (qualname ++ ":inputs") ≠ (qualname ++ ":outputs") := by
  intro h
  have hd := congrArg String.data h
  rw [String.data_append, String.data_append] at hd
  have h2 := List.append_cancel_left hd
  exact absurd h2 (by decide)

/-- A probe operation that returns the textual form of the keyword
arguments it receives and leaves the state untouched, used to observe what
reaches the wrapped operation. -/
def kwProbe : Method :=
  fun st _args kwargs =>
    (PyVal.vstr (String.intercalate "," (kwargs.map (fun p => p.1 ++ "=" ++ pyRepr p.2))), st)

/-- C10: a call through call_history appends only str() of the positional
argument tuple to the input log - the same entry whatever the keyword
arguments are - while the keyword arguments are passed through unchanged to
the underlying operation (observed through a probe returning them). -/
theorem call_history_omits_kwargs (st : ExSt) (qualname : String)
    (args : List PyVal) (kwargs kwargs2 : Kwargs) :
    inputsLog ((call_history qualname kwProbe) st args kwargs).2.redis qualname
        = inputsLog st.redis qualname ++ [pyStrTuple args]
    ∧ inputsLog ((call_history qualname kwProbe) st args kwargs).2.redis qualname
        = inputsLog ((call_history qualname kwProbe) st args kwargs2).2.redis qualname
    ∧ ((call_history qualname kwProbe) st args kwargs).1
        = PyVal.vstr (String.intercalate ","
            (kwargs.map (fun p => p.1 ++ "=" ++ pyRepr p.2))) := by
  have key : ∀ kw : Kwargs,
      inputsLog ((call_history qualname kwProbe) st args kw).2.redis qualname
        = inputsLog st.redis qualname ++ [pyStrTuple args] := by
    intro kw
    rw [call_history]
    simp only [kwProbe, inputsLog]
    rw [exLrangeAll_exRpush_other _ _ _ _ (Ne.symm (in_key_ne_out_key_general qualname)),
      exLrangeAll_exRpush_self]
  refine ⟨key kwargs, ?_, rfl⟩
  rw [key kwargs, key kwargs2]

/-- C6 counterexample: retrieving an absent key with no decode function
does not fail: it returns the Python None value, a normal return and not an
error outcome (err is the only failure outcome of the embedding). -/
theorem retrieve_absent_counterexample :
    cache_get cacheInit "missing" none = GetRes.pynone
    ∧ GetRes.pynone ≠ GetRes.err := by
  exact ⟨rfl, by decide⟩

/-- C6 amended: for an absent key, get with no decode function returns the
None value rather than failing with NotFound, while the fixed typed
decoders receive None and raise; for a present key, get applies the
supplied decode function to the raw bytes and returns its result, and
returns the raw bytes when no decode function is given. -/
theorem retrieve_absent_and_present (st : ExSt) (key : String) (b : String)
    (f : Option String → GetRes) :
    (exGet st.redis key = none →
        cache_get st key none = GetRes.pynone
        ∧ get_str st key = GetRes.err
        ∧ get_int st key = GetRes.err)
    ∧ (exGet st.redis key = some b →
        cache_get st key none = GetRes.raw b
        ∧ cache_get st key (some f) = f (some b)) := by
  constructor
  · intro h
    refine ⟨?_, ?_, ?_⟩ <;>
      simp [cache_get, get_str, get_int, h, strDecoder, intDecoder]
  · intro h
    refine ⟨?_, ?_⟩ <;> simp [cache_get, h]

/-- Witness for the amended C6 at concrete inputs: the clean state has no
key k, and after storing the text foo its key is present with payload
foo. -/
theorem retrieve_absent_and_present_witness :
    cache_get cacheInit "k" none = GetRes.pynone
    ∧ cache_get (callStore cacheInit (PyVal.vstr "foo")).2
        (callStore cacheInit (PyVal.vstr "foo")).1 none = GetRes.raw "foo" := by
  constructor
  · exact ((retrieve_absent_and_present cacheInit "k" "x" strDecoder).1 (by decide)).1
  · exact ((retrieve_absent_and_present (callStore cacheInit (PyVal.vstr "foo")).2
      (callStore cacheInit (PyVal.vstr "foo")).1 "foo" strDecoder).2 (by decide)).1

/-- The portion of the backend the web module touches: string keys whose
entries carry an optional expiry deadline, plus the current clock reading.
The backend enforces expiry: an entry whose deadline has passed is
logically absent.  Modelled from the backend contract in the
specification. -/
structure WebSt where
  kv : List (String × (String × Option Nat))
  now : Nat
deriving DecidableEq

/-- The raw stored entry under a key, expiry ignored. -/
def wRawEntry (st : WebSt) (k : String) : Option (String × Option Nat) :=
  alookup st.kv k

/-- Backend get with expiry: an entry past its deadline is absent. -/
def wGet (st : WebSt) (k : String) : Option String :=
  match wRawEntry st k with
  | none => none
  | some (v, none) => some v
  | some (v, some d) => if st.now < d then some v else none

/-- The live entry together with its deadline, used by incr, which keeps
the TTL of an existing live entry. -/
def wGetLive (st : WebSt) (k : String) : Option (String × Option Nat) :=
  match wRawEntry st k with
  | none => none
  | some (v, none) => some (v, none)
  | some (v, some d) => if st.now < d then some (v, some d) else none

/-- Backend set: unconditional overwrite, clearing any expiry. -/
def wSet (st : WebSt) (k v : String) : WebSt :=
  { st with kv := aset st.kv k (v, none) }

/-- Backend setex: unconditional overwrite with an expiry deadline of the
given number of seconds from now. -/
def wSetex (st : WebSt) (k : String) (ttl : Nat) (v : String) : WebSt :=
  { st with kv := aset st.kv k (v, some (st.now + ttl)) }

/-- Backend incr: an absent or expired entry counts as 0 and the new entry
has no expiry; a live entry keeps its deadline.  (The real backend errors
on a non-integer payload; no reachable state stores one under a counter
key, and the model totalises that case with default 0.) -/
def wIncr (st : WebSt) (k : String) : Int × WebSt :=
  match wGetLive st k with
  | none => (1, { st with kv := aset st.kv k (pyIntStr 1, none) })
  | some (v, d) =>
      ((pyStrToInt? v).getD 0 + 1,
       { st with kv := aset st.kv k (pyIntStr ((pyStrToInt? v).getD 0 + 1), d) })

/-- The clock advancing between calls. -/
def tick (st : WebSt) (t : Nat) : WebSt :=
  { st with now := st.now + t }

/-- Configuration settings of the caching system (the key namespace fields
are named pfx_count and pfx_result here, for the source fields holding the
count and result key namespaces). -/
structure CacheConfig where
  expiration_time : Nat
  pfx_count : String
  pfx_result : String
deriving DecidableEq

/-- The source default configuration: expiry 10 seconds, count and result
key namespaces. -/
def defaultConfig : CacheConfig :=
  { expiration_time := 10, pfx_count := "count", pfx_result := "result" }

/-- Embedding of RequestCache._make_key. -/
def make_key (pfx url : String) : String :=
  pfx ++ ":" ++ url

/-- The counter key of a request identifier. -/
def countKey (cfg : CacheConfig) (url : String) : String :=
  make_key cfg.pfx_count url

/-- The result key of a request identifier. -/
def resultKey (cfg : CacheConfig) (url : String) : String :=
  make_key cfg.pfx_result url

/-- Embedding of RequestCache.increment_count: the new counter value and
the updated state. -/
def increment_count (cfg : CacheConfig) (st : WebSt) (url : String) : Int × WebSt :=
  wIncr st (countKey cfg url)

/-- Embedding of RequestCache.get_cached_result: the decoded payload when
present (UTF-8 decode is the identity on the ASCII model); the source tests
the raw payload for truthiness, so an empty payload also reads as absent. -/
def get_cached_result (cfg : CacheConfig) (st : WebSt) (url : String) : Option String :=
  match wGet st (resultKey cfg url) with
  | some v => if v = "" then none else some v
  | none => none

/-- Embedding of RequestCache.cache_result: reset the counter to 0 (set
encodes the integer 0 in decimal) and write the content under the result
key with the configured expiry. -/
def cache_result (cfg : CacheConfig) (st : WebSt) (url : String) (content : String) : WebSt :=
  wSetex (wSet st (countKey cfg url) (pyIntStr 0)) (resultKey cfg url)
    cfg.expiration_time content

/-- The observable outcome of one wrapped get: the final backend state, the
returned content or the propagated fetch failure, and how many times the
fetch function ran. -/
structure WrapOut (ε : Type) where
  state : WebSt
  result : Except ε String
  fetchCalls : Nat

/-- Embedding of the data_cacher wrapper around a fetch function: increment
the request counter, serve a live cached result without fetching, otherwise
fetch, cache the fresh content (counter reset plus expiring write) and
return it.  A fetch failure propagates unchanged, leaving the state as it
was after the increment. -/
def wrapper {ε : Type} (cfg : CacheConfig) (fetch : String → Except ε String)
    (st : WebSt) (url : String) : WrapOut ε :=
  let st1 := (increment_count cfg st url).2
  match get_cached_result cfg st1 url with
  | some cached => { state := st1, result := Except.ok cached, fetchCalls := 0 }
  | none =>
      match fetch url with
      | Except.error e => { state := st1, result := Except.error e, fetchCalls := 1 }
      | Except.ok r =>
          { state := cache_result cfg st1 url r, result := Except.ok r, fetchCalls := 1 }

/-- The request counter as a read of the backend would report it: 0 when
absent, otherwise int() of the stored payload. -/
def countOf (cfg : CacheConfig) (st : WebSt) (url : String) : Int :=
  ((wGet st (countKey cfg url)).bind pyStrToInt?).getD 0

lemma wGet_eq_of_raw_now (st st2 : WebSt) (k : String)
    (h1 : wRawEntry st2 k = wRawEntry st k) (h2 : st2.now = st.now) :
    wGet st2 k = wGet st k := by
  rw [wGet, wGet, h1, h2]

lemma wGet_eq_map_live (st : WebSt) (k : String) :
    wGet st k = (wGetLive st k).map Prod.fst := by
  rw [wGet, wGetLive]
  rcases wRawEntry st k with _ | ⟨v, _ | d⟩
  · rfl
  · rfl
  · by_cases h : st.now < d
    · simp [h]
    · simp [h]

lemma wGetLive_deadline (st : WebSt) (k : String) (v : String) (dl : Nat)
    (h : wGetLive st k = some (v, some dl)) : st.now < dl := by
  rw [wGetLive] at h
  rcases hr : wRawEntry st k with _ | ⟨v2, _ | dl2⟩ <;> rw [hr] at h
  · simp at h
  · simp at h
  · by_cases hn : st.now < dl2
    · simp [hn] at h
      omega
    · simp [hn] at h

lemma countOf_wIncr (st : WebSt) (k : String) :
    ((wGet (wIncr st k).2 k).bind pyStrToInt?).getD 0
      = ((wGet st k).bind pyStrToInt?).getD 0 + 1 := by
  rcases hl : wGetLive st k with _ | ⟨v, d⟩
  · rw [wIncr, hl]
    simp only
    have hnew : wGet { st with kv := aset st.kv k (pyIntStr 1, none) } k = some (pyIntStr 1) := by
      rw [wGet, wRawEntry]
      simp [alookup_aset_self]
    rw [hnew, wGet_eq_map_live, hl]
    simp [pyStrToInt?_pyIntStr]
  · rw [wIncr, hl]
    simp only
    have hnew : wGet { st with kv := aset st.kv k (pyIntStr ((pyStrToInt? v).getD 0 + 1), d) } k
        = some (pyIntStr ((pyStrToInt? v).getD 0 + 1)) := by
      rw [wGet, wRawEntry]
      simp only [alookup_aset_self]
      rcases d with _ | dl
      · rfl
      · have hlive : st.now < dl := wGetLive_deadline st k v dl hl
        simp [hlive]
    rw [hnew, wGet_eq_map_live, hl]
    simp [pyStrToInt?_pyIntStr]

lemma wRawEntry_wSet_other (st : WebSt) (k k2 v : String) (h : k ≠ k2) :
    wRawEntry (wSet st k v) k2 = wRawEntry st k2 := by
  rw [wRawEntry, wSet]
  exact alookup_aset_other _ _ _ _ h

lemma wRawEntry_wSetex_other (st : WebSt) (k k2 : String) (ttl : Nat) (v : String)
    (h : k ≠ k2) : wRawEntry (wSetex st k ttl v) k2 = wRawEntry st k2 := by
  rw [wRawEntry, wSetex]
  exact alookup_aset_other _ _ _ _ h

lemma wRawEntry_wIncr_other (st : WebSt) (k k2 : String) (h : k ≠ k2) :
    wRawEntry (wIncr st k).2 k2 = wRawEntry st k2 := by
  rw [wIncr]
  rcases hl : wGetLive st k with _ | ⟨v, d⟩ <;>
    simp only <;> rw [wRawEntry] <;> exact alookup_aset_other _ _ _ _ h

lemma now_wIncr (st : WebSt) (k : String) : (wIncr st k).2.now = st.now := by
  rw [wIncr]
  rcases hl : wGetLive st k with _ | ⟨v, d⟩ <;> simp only

lemma countOf_increment (cfg : CacheConfig) (st : WebSt) (url : String) :
    countOf cfg (increment_count cfg st url).2 url = countOf cfg st url + 1 := by
  rw [countOf, countOf, increment_count]
  exact countOf_wIncr st (countKey cfg url)

lemma countOf_cache_result_self (cfg : CacheConfig) (st : WebSt) (url content : String)
    (hk : countKey cfg url ≠ resultKey cfg url) :
    countOf cfg (cache_result cfg st url content) url = 0 := by
  rw [countOf, cache_result]
  have hraw : wRawEntry (wSetex (wSet st (countKey cfg url) (pyIntStr 0)) (resultKey cfg url)
      cfg.expiration_time content) (countKey cfg url)
      = wRawEntry (wSet st (countKey cfg url) (pyIntStr 0)) (countKey cfg url) :=
    wRawEntry_wSetex_other _ _ _ _ _ (Ne.symm hk)
  have hnow : (wSetex (wSet st (countKey cfg url) (pyIntStr 0)) (resultKey cfg url)
      cfg.expiration_time content).now
      = (wSet st (countKey cfg url) (pyIntStr 0)).now := rfl
  rw [wGet_eq_of_raw_now _ _ _ hraw hnow]
  have hset : wGet (wSet st (countKey cfg url) (pyIntStr 0)) (countKey cfg url)
      = some (pyIntStr 0) := by
    rw [wGet, wRawEntry, wSet]
    simp [alookup_aset_self]
  rw [hset]
  simp [pyStrToInt?_pyIntStr]

lemma resultEntry_cache_result (cfg : CacheConfig) (st : WebSt) (url content : String) :
    wRawEntry (cache_result cfg st url content) (resultKey cfg url)
      = some (content, some (st.now + cfg.expiration_time)) := by
  rw [cache_result, wRawEntry, wSetex]
  simp [alookup_aset_self, wSet]

/-- C4: a wrapped get first increments the request counter unconditionally
(its value after the increment step reads one more than before, on every
call); when a cached entry is present after that step it returns exactly
that content with the fetch function never invoked; otherwise it invokes
the fetch function once, resets the request counter to 0, writes the fresh
content under the result key with an expiry deadline the configured number
of seconds from now, and returns the fresh content. -/
theorem wrapper_get_steps {ε : Type} (cfg : CacheConfig) (fetch : String → Except ε String)
    (st : WebSt) (url : String) (c v : String)
    (hk : countKey cfg url ≠ resultKey cfg url) :
    countOf cfg (increment_count cfg st url).2 url = countOf cfg st url + 1
    ∧ (get_cached_result cfg (increment_count cfg st url).2 url = some c →
        wrapper cfg fetch st url =
          { state := (increment_count cfg st url).2,
            result := Except.ok c, fetchCalls := 0 })
    ∧ (get_cached_result cfg (increment_count cfg st url).2 url = none →
        fetch url = Except.ok v →
        (wrapper cfg fetch st url).result = Except.ok v
        ∧ (wrapper cfg fetch st url).fetchCalls = 1
        ∧ countOf cfg (wrapper cfg fetch st url).state url = 0
        ∧ wRawEntry (wrapper cfg fetch st url).state (resultKey cfg url)
            = some (v, some (st.now + cfg.expiration_time))) := by
  refine ⟨countOf_increment cfg st url, ?_, ?_⟩
  · intro hhit
    rw [wrapper]
    simp only [hhit]
  · intro hmiss hok
    rw [wrapper]
    simp only [hmiss, hok]
    refine ⟨trivial, trivial, ?_, ?_⟩
    · exact countOf_cache_result_self cfg _ url v hk
    · rw [resultEntry_cache_result]
      have hn2 : (increment_count cfg st url).2.now = st.now := now_wIncr st _
      rw [hn2]

/-- Witness for C4 at concrete inputs: default configuration, a stub fetch
returning X, the empty backend at time 0 and the request identifier u; the
call is a miss, the fetch succeeds, the counter reads 0 afterwards and the
result entry carries the deadline 10. -/
theorem wrapper_get_steps_witness :
    countOf defaultConfig ({ kv := [], now := 0 } : WebSt) "u" = 0
    ∧ (wrapper defaultConfig (fun _ => (Except.ok "X" : Except Unit String)) ({ kv := [], now := 0 } : WebSt)
        "u").result = Except.ok "X"
    ∧ countOf defaultConfig (wrapper defaultConfig (fun _ => (Except.ok "X" : Except Unit String))
        ({ kv := [], now := 0 } : WebSt) "u").state "u" = 0
    ∧ wRawEntry (wrapper defaultConfig (fun _ => (Except.ok "X" : Except Unit String))
        ({ kv := [], now := 0 } : WebSt) "u").state (resultKey defaultConfig "u")
        = some ("X", some 10) := by
  have h := wrapper_get_steps defaultConfig (fun _ => (Except.ok "X" : Except Unit String))
    ({ kv := [], now := 0 } : WebSt) "u" "unused" "X" (by decide)
  rcases (h.2.2 (by decide) rfl) with ⟨h1, h2, h3, h4⟩
  exact ⟨by decide, h1, h3, h4⟩

/-- A stub fetch that always succeeds with content X. -/
def fetchX : String → Except Unit String := fun _ => Except.ok "X"

/-- The empty backend at time 0. -/
def emptyWeb : WebSt := { kv := [], now := 0 }

/-- The state just after a first get of u populated the cache. -/
def c5popSt : WebSt := (wrapper defaultConfig fetchX emptyWeb "u").state

/-- The populated state with the expiry window fully elapsed. -/
def c5preSt : WebSt := tick c5popSt 10

/-- C5 counterexample: a subsequent get for a populated id that is a cache
miss (here because the entry expired) and whose fetch succeeds leaves the
request counter at 0, not incremented by exactly 1 relative to before that
get: the counter read 0 before the get and still reads 0 after it. -/
theorem counter_increment_on_miss_counterexample :
    (wrapper defaultConfig fetchX c5preSt "u").fetchCalls = 1
    ∧ countOf defaultConfig c5preSt "u" = 0
    ∧ countOf defaultConfig (wrapper defaultConfig fetchX c5preSt "u").state "u" = 0
    ∧ ¬ (countOf defaultConfig (wrapper defaultConfig fetchX c5preSt "u").state "u"
          = countOf defaultConfig c5preSt "u" + 1) := by
  refine ⟨by decide, by decide, by decide, by decide⟩

/-- C5 corrected: immediately after any cache population (a get that
performed a fresh fetch) the request counter for that id reads 0; a
subsequent get that is a cache hit, or whose fetch fails, leaves the
counter incremented by exactly 1 relative to before that get; but a
subsequent get that is a cache miss with a successful fetch populates the
cache again and resets the counter to 0 rather than incrementing it. -/
theorem counter_reset_and_increment {ε : Type} (cfg : CacheConfig)
    (fetch : String → Except ε String) (st : WebSt) (url : String) (c v : String) (e : ε)
    (hk : countKey cfg url ≠ resultKey cfg url) :
    (get_cached_result cfg (increment_count cfg st url).2 url = none →
        fetch url = Except.ok v →
        countOf cfg (wrapper cfg fetch st url).state url = 0)
    ∧ (get_cached_result cfg (increment_count cfg st url).2 url = some c →
        countOf cfg (wrapper cfg fetch st url).state url = countOf cfg st url + 1)
    ∧ (get_cached_result cfg (increment_count cfg st url).2 url = none →
        fetch url = Except.error e →
        countOf cfg (wrapper cfg fetch st url).state url = countOf cfg st url + 1) := by
  refine ⟨?_, ?_, ?_⟩
  · intro hmiss hok
    rw [wrapper]
    simp only [hmiss, hok]
    exact countOf_cache_result_self cfg _ url v hk
  · intro hhit
    rw [wrapper]
    simp only [hhit]
    exact countOf_increment cfg st url
  · intro hmiss herr
    rw [wrapper]
    simp only [hmiss, herr]
    exact countOf_increment cfg st url

/-- Witness for the corrected C5 at concrete inputs: the first get of u
from the empty backend populates and leaves the counter at 0; a second get
within the expiry window is a hit and leaves the counter at one more than
before. -/
theorem counter_reset_and_increment_witness :
    countOf defaultConfig (wrapper defaultConfig fetchX emptyWeb "u").state "u" = 0
    ∧ countOf defaultConfig (wrapper defaultConfig fetchX c5popSt "u").state "u"
        = countOf defaultConfig c5popSt "u" + 1 := by
  constructor
  · exact (counter_reset_and_increment defaultConfig fetchX emptyWeb "u" "c" "X" ()
      (by decide)).1 (by decide) rfl
  · exact (counter_reset_and_increment defaultConfig fetchX c5popSt "u" "X" "v" ()
      (by decide)).2.1 (by decide)

/-- C7: when the fetch function fails during a cache-miss get, the failure
value propagates unchanged as the outcome of the get, the fetch ran exactly
once, no result entry is written for the id (the raw entry under the result
key is exactly what it was before the call), and the request counter is not
reset: it holds exactly the unconditional increment over its prior value. -/
theorem fetch_failure_propagates {ε : Type} (cfg : CacheConfig)
    (fetch : String → Except ε String) (st : WebSt) (url : String) (e : ε)
    (hk : countKey cfg url ≠ resultKey cfg url)
    (hmiss : get_cached_result cfg (increment_count cfg st url).2 url = none)
    (herr : fetch url = Except.error e) :
    (wrapper cfg fetch st url).result = Except.error e
    ∧ (wrapper cfg fetch st url).fetchCalls = 1
    ∧ wRawEntry (wrapper cfg fetch st url).state (resultKey cfg url)
        = wRawEntry st (resultKey cfg url)
    ∧ countOf cfg (wrapper cfg fetch st url).state url = countOf cfg st url + 1 := by
  rw [wrapper]
  simp only [hmiss, herr]
  refine ⟨trivial, trivial, ?_, ?_⟩
  · exact wRawEntry_wIncr_other st _ _ hk
  · exact countOf_increment cfg st url

/-- Witness for C7 at concrete inputs: a failing stub fetch on the empty
backend propagates its error, writes no result entry and leaves the counter
at the incremented value 1. -/
theorem fetch_failure_propagates_witness :
    (wrapper defaultConfig (fun _ => (Except.error () : Except Unit String)) emptyWeb
        "u").result = Except.error ()
    ∧ wRawEntry (wrapper defaultConfig (fun _ => (Except.error () : Except Unit String))
        emptyWeb "u").state (resultKey defaultConfig "u")
        = wRawEntry emptyWeb (resultKey defaultConfig "u")
    ∧ countOf defaultConfig (wrapper defaultConfig
        (fun _ => (Except.error () : Except Unit String)) emptyWeb "u").state "u"
        = countOf defaultConfig emptyWeb "u" + 1 := by
  have h := fetch_failure_propagates defaultConfig
    (fun _ => (Except.error () : Except Unit String)) emptyWeb "u" ()
    (by decide) (by decide) rfl
  exact ⟨h.1, h.2.2.1, h.2.2.2⟩
